import Mathlib

/-!
Verification of the BCM2708 cyclic DMA engine driver
(drivers/dma/bcm2708-dmaengine.c).

The driver is shallowly embedded: the pure descriptor builder
(bcm2708_dma_prep_dma_cyclic) and the residue walk
(bcm2708_dma_desc_size_pos) become Lean functions over the channel
configuration and descriptor records; the stateful operations
(issue_pending, the interrupt callback, terminate_all) become functions
from an explicit channel state to a new state together with a list of
observable events (register writes, hardware start/abort, allocator
calls, descriptor frees, log messages).  Hardware register reads are an
oracle parameter (the value returned by the n-th read), since the
hardware advances concurrently with software.

The virt-dma helper layer (virt-dma.h/.c) is part of this kernel tree
but not among the given sources; where a function from it decides
behaviour it is modelled from the specification's description of the
per-channel descriptor queue, and this is stated in its doc comment.
-/

namespace BCM2708

/-- Transfer directions, after the Linux enum dma_transfer_direction
(linux/dmaengine.h). -/
inductive Dir where
  | memToMem
  | memToDev
  | devToMem
  | devToDev
  deriving DecidableEq, Repr

/-- Valid slave directions, after is_slave_direction (linux/dmaengine.h):
exactly memory-to-device and device-to-memory. -/
def is_slave_direction (d : Dir) : Bool :=
  d = Dir.memToDev ∨ d = Dir.devToMem

/-- Modelled from the spec: the 4-byte bus width constant
DMA_SLAVE_BUSWIDTH_4_BYTES of the external dmaengine framework header,
measured in bytes. -/
def DMA_SLAVE_BUSWIDTH_4_BYTES : Nat := 4

/-- Element-size code for 32-bit elements (BCM2708_DMA_DATA_TYPE_S32 in
the source).  The builder computes it for 4-byte widths; the value is
never used afterwards. -/
def BCM2708_DMA_DATA_TYPE_S32 : Nat := 4

/-- Modelled from the spec: interrupt-enable bit of the control-block
flag word, from the missing mach/dma.h header (spec section 6 register
protocol: the flag word carries an interrupt-enable flag). -/
def BCM2708_DMA_INT_EN : Nat := 1

/-- Modelled from the spec: destination address auto-increment bit of
the control-block flag word (missing mach/dma.h header). -/
def BCM2708_DMA_D_INC : Nat := 16

/-- Modelled from the spec: source address auto-increment bit of the
control-block flag word (missing mach/dma.h header). -/
def BCM2708_DMA_S_INC : Nat := 256

/-- Modelled from the spec: destination request-line synchronisation bit
of the flag word (missing mach/dma.h header). -/
def BCM2708_DMA_D_DREQ : Nat := 64

/-- Modelled from the spec: source request-line synchronisation bit of
the flag word (missing mach/dma.h header). -/
def BCM2708_DMA_S_DREQ : Nat := 1024

/-- Modelled from the spec: peripheral-map id field of the flag word,
occupying bits 16 and above (missing mach/dma.h header). -/
def BCM2708_DMA_PER_MAP (x : Nat) : Nat := x <<< 16

/-- Modelled from the spec: byte offset of the control-and-status
register (missing mach/dma.h header). -/
def BCM2708_DMA_CS : Nat := 0

/-- Modelled from the spec: run/active bit of the control-and-status
register (missing mach/dma.h header). -/
def BCM2708_DMA_ACTIVE : Nat := 1

/-- Modelled from the spec: interrupt-pending bit of the
control-and-status register, cleared by writing it (missing mach/dma.h
header). -/
def BCM2708_DMA_INT : Nat := 4

/-- Modelled from the spec: byte size of one struct bcm2708_dma_cb
control block (missing mach/dma.h header; eight 32-bit words).  Only its
role as the stride between consecutive control-block addresses matters
for the claims. -/
def sizeof_bcm2708_dma_cb : Nat := 32

/-- One hardware control block (struct bcm2708_dma_cb): flag word,
source address, destination address, length in bytes, physical address
of the next block.  The stride and padding words of the C struct are
never written by this driver and are omitted. -/
structure DmaCB where
  info : Nat
  src : Nat
  dst : Nat
  length : Nat
  next : Nat
  deriving DecidableEq, Repr

/-- A cyclic descriptor (struct bcm2708_desc): direction, size in bytes
of the control-block allocation, its physical base address, frame count,
total size, and the control blocks themselves (the contents of
control_block_base).  The virt-dma bookkeeping member vd is represented
by the descriptor's position in the channel state below. -/
structure Desc where
  dir : Dir
  control_block_size : Nat
  control_block_base_phys : Nat
  frames : Nat
  size : Nat
  cbs : List DmaCB
  deriving DecidableEq, Repr

/-- The slave configuration stored on the channel (struct
dma_slave_config members read by this driver). -/
structure DmaSlaveConfig where
  direction : Dir
  src_addr : Nat
  src_addr_width : Nat
  dst_addr : Nat
  dst_addr_width : Nat
  slave_id : Nat
  deriving DecidableEq, Repr

/-- Observable events of the stateful operations: register writes,
reads of the control-and-status register, cooperative yields, hardware
start/abort commands, the cyclic period notification, descriptor frees,
the two allocator calls of the builder with the matching error-path
free, clearing of the active slot, and the termination-timeout log
message. -/
inductive Event where
  | writeReg (off val : Nat)
  | readCSReg (val : Nat)
  | cpuRelax
  | hwStart (addr : Nat)
  | hwAbort
  | cyclicNotify (d : Desc)
  | descFree (d : Desc)
  | kzallocDesc
  | kfreeDesc
  | coherentAlloc (size : Nat)
  | clearActive
  | logTimeout
  deriving DecidableEq, Repr

/-- Builds the control block for one frame, exactly as the loop body of
bcm2708_dma_prep_dma_cyclic writes it: addresses and the advancing-side
auto-increment flag by direction, then interrupt enable, then the
request-line synchronisation bit when non-zero, then the peripheral map
when the configured slave id is non-zero; length is the period length
and the next pointer wraps at the number of frames. -/
def mkControlBlock (dir : Dir) (dev_addr buf_addr period_len slave_id sync_type base_phys frames frame : Nat) : DmaCB :=
  let info0 := if dir = Dir.devToMem then BCM2708_DMA_D_INC else BCM2708_DMA_S_INC
  let src := if dir = Dir.devToMem then dev_addr else buf_addr + frame * period_len
  let dst := if dir = Dir.devToMem then buf_addr + frame * period_len else dev_addr
  let info1 := info0 ||| BCM2708_DMA_INT_EN
  let info2 := if sync_type ≠ 0 then info1 ||| sync_type else info1
  let info3 := if slave_id ≠ 0 then info2 ||| BCM2708_DMA_PER_MAP slave_id else info2
  { info := info3
    src := src
    dst := dst
    length := period_len
    next := base_phys + sizeof_bcm2708_dma_cb * ((frame + 1) % frames) }

/-- Outcome of the builder: the descriptor when it succeeds (NULL return
is none) plus the allocator events it performed. -/
structure PrepOutcome where
  result : Option Desc
  events : List Event
  deriving DecidableEq, Repr

/-- Direction-dependent configuration grab at the top of
bcm2708_dma_prep_dma_cyclic: device address, device width and
synchronisation type; none for a direction that is neither
device-to-memory nor memory-to-device (the bad-direction error path). -/
def grabConfig (cfg : DmaSlaveConfig) (direction : Dir) : Option (Nat × Nat × Nat) :=
  match direction with
  | Dir.devToMem => some (cfg.src_addr, cfg.src_addr_width, BCM2708_DMA_S_DREQ)
  | Dir.memToDev => some (cfg.dst_addr, cfg.dst_addr_width, BCM2708_DMA_D_DREQ)
  | _ => none

/-- The descriptor builder bcm2708_dma_prep_dma_cyclic.  Beyond the C
arguments it takes the outcome of the two allocator calls as oracles:
whether kzalloc of the descriptor succeeds, whether the coherent
allocation of the control blocks succeeds, and the physical base address
the coherent allocator returns.  The width switch accepts exactly the
4-byte width (computing the unused element-size code) and fails
otherwise; frames is the integer quotient of the buffer length by the
period length; the control blocks are the loop body applied to each
frame index, and size accumulates the block lengths.  The final
vchan_tx_prep wrap (a queue-registration helper of the missing virt-dma
layer) is the identity on the descriptor here; submission is modelled on
the channel state. -/
def bcm2708_dma_prep_dma_cyclic (cfg : DmaSlaveConfig)
    (buf_addr buf_len period_len : Nat) (direction : Dir)
    (base_phys : Nat) (kzallocOk coherentOk : Bool) : PrepOutcome :=
  match grabConfig cfg direction with
  | none => { result := none, events := [] }
  | some (dev_addr, dev_width, sync_type) =>
    if dev_width = DMA_SLAVE_BUSWIDTH_4_BYTES then
      if kzallocOk then
        let frames := buf_len / period_len
        let control_block_size := frames * sizeof_bcm2708_dma_cb
        if coherentOk then
          let cbs := (List.range frames).map
            (mkControlBlock direction dev_addr buf_addr period_len cfg.slave_id sync_type base_phys frames)
          { result := some
              { dir := direction
                control_block_size := control_block_size
                control_block_base_phys := base_phys
                frames := frames
                size := (cbs.map fun cb => cb.length).sum
                cbs := cbs }
            events := [Event.kzallocDesc, Event.coherentAlloc control_block_size] }
        else { result := none, events := [Event.kzallocDesc, Event.kfreeDesc] }
      else { result := none, events := [] }
    else { result := none, events := [] }

/-- Per-channel software state: the active descriptor slot c->desc and
the queue of submitted, not yet started descriptors.  The write-only
c->cyclic member (set by issue_pending, never read anywhere in the
driver) and the schedulable-list node are not represented; no claim
mentions them. -/
structure ChanState where
  desc : Option Desc
  pending : List Desc
  deriving DecidableEq, Repr

/-- Modelled from the spec: vchan_issue_pending of the missing virt-dma
layer.  Spec section 4.2 keeps one ordered queue of submitted
descriptors per channel; the helper reports whether that queue is
non-empty. -/
def vchan_issue_pending (s : ChanState) : Bool :=
  !s.pending.isEmpty

/-- Modelled from the spec: vchan_next_desc of the missing virt-dma
layer returns the head of the channel's queue of submitted descriptors,
or none when the queue is empty. -/
def vchan_next_desc (s : ChanState) : Option Desc :=
  s.pending.head?

/-- bcm2708_dma_start_desc: takes the next queued descriptor; if there
is none it clears the active slot, otherwise it removes the descriptor
from the queue, makes it active and starts the hardware with the
physical address of its first control block. -/
def bcm2708_dma_start_desc (s : ChanState) : ChanState × List Event :=
  match vchan_next_desc s with
  | none => ({ s with desc := none }, [])
  | some d =>
    ({ desc := some d, pending := s.pending.tail },
     [Event.hwStart d.control_block_base_phys])

/-- bcm2708_dma_issue_pending: under the channel lock, if the queue is
non-empty and there is no active descriptor, start the next descriptor;
otherwise do nothing. -/
def bcm2708_dma_issue_pending (s : ChanState) : ChanState × List Event :=
  if vchan_issue_pending s && s.desc.isNone then bcm2708_dma_start_desc s
  else (s, [])

/-- bcm2708_dma_callback, the interrupt handler body under the channel
lock: acknowledge the interrupt by writing the interrupt-pending bit to
the control-and-status register; if a descriptor is active, schedule the
cyclic period notification for it (vchan_cyclic_callback of the missing
virt-dma layer, modelled from the spec as the period-boundary
notification event); then, unconditionally, write the run bit back to
the control-and-status register to keep the engine running.  The
software state is unchanged. -/
def bcm2708_dma_callback (s : ChanState) : ChanState × List Event :=
  (s,
   [Event.writeReg BCM2708_DMA_CS BCM2708_DMA_INT]
   ++ (match s.desc with
       | some d => [Event.cyclicNotify d]
       | none => [])
   ++ [Event.writeReg BCM2708_DMA_CS BCM2708_DMA_ACTIVE])

/-- The residue walk bcm2708_dma_desc_size_pos compares the hardware
position against the destination of each block for device-to-memory
descriptors and against the source otherwise. -/
def stepPos (dir : Dir) (cb : DmaCB) : Nat :=
  if dir = Dir.devToMem then cb.dst else cb.src

/-- Loop of bcm2708_dma_desc_size_pos over the control blocks, carrying
the accumulator size: once size is non-zero every further block adds its
length; while size is zero, a block whose address range contains the
position contributes that block's remainder. -/
def sizePosLoop (dir : Dir) (addr : Nat) : List DmaCB → Nat → Nat
  | [], size => size
  | cb :: rest, size =>
    let this_size := cb.length
    let dma := stepPos dir cb
    let size' :=
      if size ≠ 0 then size + this_size
      else if dma ≤ addr ∧ addr < dma + this_size then size + (dma + this_size - addr)
      else size
    sizePosLoop dir addr rest size'

/-- bcm2708_dma_desc_size_pos: walk the first d.frames control blocks
(the C loop indexes the control-block array with i below d->frames; for
a well-formed descriptor frames equals the number of blocks) starting
with accumulator zero. -/
def bcm2708_dma_desc_size_pos (d : Desc) (addr : Nat) : Nat :=
  sizePosLoop d.dir addr (d.cbs.take d.frames) 0

/-- Membership of an address in one control block's advancing-side
address range, the condition of the residue walk. -/
def inStep (dir : Dir) (addr : Nat) (cb : DmaCB) : Prop :=
  stepPos dir cb ≤ addr ∧ addr < stepPos dir cb + cb.length

instance (dir : Dir) (addr : Nat) (cb : DmaCB) : Decidable (inStep dir addr cb) :=
  inferInstanceAs (Decidable (_ ∧ _))

/-- The fixed poll bound of bcm2708_dma_terminate_all (the local
variable timeout, initialised to 10000). -/
def BCM2708_TERMINATE_TIMEOUT : Nat := 10000

/-- The hardware-quiesce wait loop of bcm2708_dma_terminate_all:
while the countdown is positive, decrement it, read the
control-and-status register (the oracle readCS gives the value of the
n-th read), stop when the run bit is clear, otherwise yield and
continue.  Returns the remaining countdown and the read/yield events. -/
def waitForStop (readCS : Nat → Nat) : Nat → Nat → Nat × List Event
  | 0, _ => (0, [])
  | Nat.succ t, k =>
    let v := readCS k
    if v &&& BCM2708_DMA_ACTIVE = 0 then (t, [Event.readCSReg v])
    else
      let r := waitForStop readCS t (k + 1)
      (r.1, Event.readCSReg v :: Event.cpuRelax :: r.2)

/-- Modelled from the spec: vchan_get_all_descriptors of the missing
virt-dma layer drains the channel's queue of submitted, never-started
descriptors into a list (the active descriptor is in no queue and is
not collected). -/
def vchan_get_all_descriptors (s : ChanState) : ChanState × List Desc :=
  ({ s with pending := [] }, s.pending)

/-- Modelled from the spec: vchan_dma_desc_free_list of the missing
virt-dma layer frees every descriptor of the drained list through the
channel's free routine (bcm2708_dma_desc_free: release the coherent
control-block memory, then the descriptor). -/
def vchan_dma_desc_free_list (ds : List Desc) : List Event :=
  ds.map Event.descFree

/-- Outcome of terminate: new channel state, events, and the returned
status code. -/
structure TermOutcome where
  state : ChanState
  events : List Event
  ret : Int
  deriving DecidableEq, Repr

/-- bcm2708_dma_terminate_all: under the channel lock (the
schedulable-list removal guarded by the device lock touches only state
not represented here), if a descriptor is active, clear the active slot,
issue the hardware abort, and poll the run bit up to the fixed bound,
logging the termination-timeout message when the countdown is exhausted;
then drain the queue and free every drained descriptor; return 0.
The previously active descriptor is in no queue, so the drain does not
reach it and no free event is emitted for it. -/
def bcm2708_dma_terminate_all (readCS : Nat → Nat) (s : ChanState) : TermOutcome :=
  match s.desc with
  | none =>
    let drained := vchan_get_all_descriptors { s with desc := none }
    { state := drained.1
      events := vchan_dma_desc_free_list drained.2
      ret := 0 }
  | some _ =>
    let w := waitForStop readCS BCM2708_TERMINATE_TIMEOUT 0
    let logEvs := if w.1 = 0 then [Event.logTimeout] else []
    let drained := vchan_get_all_descriptors { s with desc := none }
    { state := drained.1
      events := [Event.clearActive, Event.hwAbort] ++ w.2 ++ logEvs
                ++ vchan_dma_desc_free_list drained.2
      ret := 0 }

/-- Number of control-and-status register reads (poll iterations) in an
event list. -/
def pollCount (evs : List Event) : Nat :=
  (evs.filter fun e => match e with | Event.readCSReg _ => true | _ => false).length

/-- Number of allocator calls in an event list (descriptor kzalloc and
coherent control-block allocation). -/
def allocCount (evs : List Event) : Nat :=
  (evs.filter fun e =>
    match e with
    | Event.kzallocDesc => true
    | Event.coherentAlloc _ => true
    | _ => false).length

/-- Number of release calls in an event list (error-path kfree of the
descriptor and full descriptor frees). -/
def freeCount (evs : List Event) : Nat :=
  (evs.filter fun e =>
    match e with
    | Event.kfreeDesc => true
    | Event.descFree _ => true
    | _ => false).length

/-- A sample slave configuration used by the concrete witnesses: both
widths are 4 bytes, the endpoint address is the I2S FIFO register
address, and the request line is 2. -/
def cfgW : DmaSlaveConfig :=
  { direction := Dir.devToMem
    src_addr := 0x7E203004
    src_addr_width := 4
    dst_addr := 0x7E203004
    dst_addr_width := 4
    slave_id := 2 }

/-- A sample one-frame descriptor used by the concrete witnesses. -/
def dW : Desc :=
  { dir := Dir.devToMem
    control_block_size := 32
    control_block_base_phys := 0x100
    frames := 1
    size := 1024
    cbs := [{ info := 1041, src := 0x7E203004, dst := 0x1000, length := 1024, next := 0x100 }] }

/-! ### Helper lemmas about the builder -/

/-- Unfolding of a successful device-to-memory build. -/
theorem prep_devToMem_eq (cfg : DmaSlaveConfig) (buf_addr buf_len period_len base_phys : Nat)
    (hw : cfg.src_addr_width = DMA_SLAVE_BUSWIDTH_4_BYTES) :
    bcm2708_dma_prep_dma_cyclic cfg buf_addr buf_len period_len Dir.devToMem base_phys true true
    = { result := some
          { dir := Dir.devToMem
            control_block_size := (buf_len / period_len) * sizeof_bcm2708_dma_cb
            control_block_base_phys := base_phys
            frames := buf_len / period_len
            size := ((((List.range (buf_len / period_len)).map
              (mkControlBlock Dir.devToMem cfg.src_addr buf_addr period_len cfg.slave_id
                BCM2708_DMA_S_DREQ base_phys (buf_len / period_len))).map fun cb => cb.length)).sum
            cbs := (List.range (buf_len / period_len)).map
              (mkControlBlock Dir.devToMem cfg.src_addr buf_addr period_len cfg.slave_id
                BCM2708_DMA_S_DREQ base_phys (buf_len / period_len)) }
        events := [Event.kzallocDesc,
          Event.coherentAlloc ((buf_len / period_len) * sizeof_bcm2708_dma_cb)] } := by
  simp [bcm2708_dma_prep_dma_cyclic, grabConfig, hw]

/-- Unfolding of a successful memory-to-device build. -/
theorem prep_memToDev_eq (cfg : DmaSlaveConfig) (buf_addr buf_len period_len base_phys : Nat)
    (hw : cfg.dst_addr_width = DMA_SLAVE_BUSWIDTH_4_BYTES) :
    bcm2708_dma_prep_dma_cyclic cfg buf_addr buf_len period_len Dir.memToDev base_phys true true
    = { result := some
          { dir := Dir.memToDev
            control_block_size := (buf_len / period_len) * sizeof_bcm2708_dma_cb
            control_block_base_phys := base_phys
            frames := buf_len / period_len
            size := ((((List.range (buf_len / period_len)).map
              (mkControlBlock Dir.memToDev cfg.dst_addr buf_addr period_len cfg.slave_id
                BCM2708_DMA_D_DREQ base_phys (buf_len / period_len))).map fun cb => cb.length)).sum
            cbs := (List.range (buf_len / period_len)).map
              (mkControlBlock Dir.memToDev cfg.dst_addr buf_addr period_len cfg.slave_id
                BCM2708_DMA_D_DREQ base_phys (buf_len / period_len)) }
        events := [Event.kzallocDesc,
          Event.coherentAlloc ((buf_len / period_len) * sizeof_bcm2708_dma_cb)] } := by
  simp [bcm2708_dma_prep_dma_cyclic, grabConfig, hw]

/-- Indexing a map over a range. -/
theorem get_range_map {α : Type} (f : Nat → α) (n i : Nat)
    (hi : i < ((List.range n).map f).length) :
    ((List.range n).map f).get ⟨i, hi⟩ = f i := by
  simp

/-- Sum of the lengths of a frame-indexed block list all of whose blocks
have the same length. -/
theorem sum_lengths_range_map (f : Nat → DmaCB) (n p : Nat) (hf : ∀ i, (f i).length = p) :
    (((List.range n).map f).map fun cb => cb.length).sum = n * p := by
  induction n with
  | zero => simp
  | succ k ih =>
    rw [List.range_succ, List.map_append, List.map_append, List.sum_append, ih]
    simp [hf, Nat.succ_mul]

/-- The low bits of the flag word are unchanged by the peripheral-map
field, which occupies bits 16 and above. -/
theorem info_testBit_low (base slave_id i : Nat) (hi : i < 16) (hbase : base.testBit i = true) :
    (if slave_id ≠ 0 then base ||| BCM2708_DMA_PER_MAP slave_id else base).testBit i = true := by
  split
  · simp [BCM2708_DMA_PER_MAP, Nat.testBit_or, Nat.testBit_shiftLeft, hbase, Nat.not_le.2 hi]
  · exact hbase

/-! ### Claim theorems -/

/-- C3: for every call to the builder whose direction is not a valid
slave direction, or whose configured endpoint width for that direction
is not 4 bytes, the call fails (returns none, i.e. the C NULL) and no
allocation is performed before the failure is returned: the event list
is empty. -/
theorem prep_invalid_config_fails_no_alloc (cfg : DmaSlaveConfig)
    (buf_addr buf_len period_len base_phys : Nat) (direction : Dir)
    (kzallocOk coherentOk : Bool)
    (hbad : (direction ≠ Dir.devToMem ∧ direction ≠ Dir.memToDev)
      ∨ (direction = Dir.devToMem ∧ cfg.src_addr_width ≠ DMA_SLAVE_BUSWIDTH_4_BYTES)
      ∨ (direction = Dir.memToDev ∧ cfg.dst_addr_width ≠ DMA_SLAVE_BUSWIDTH_4_BYTES)) :
    (bcm2708_dma_prep_dma_cyclic cfg buf_addr buf_len period_len direction base_phys
      kzallocOk coherentOk).result = none
    ∧ (bcm2708_dma_prep_dma_cyclic cfg buf_addr buf_len period_len direction base_phys
      kzallocOk coherentOk).events = [] := by
  rcases hbad with ⟨h1, h2⟩ | ⟨h, hw⟩ | ⟨h, hw⟩
  · cases direction <;> simp_all [bcm2708_dma_prep_dma_cyclic, grabConfig]
  · subst h
    simp [bcm2708_dma_prep_dma_cyclic, grabConfig, hw]
  · subst h
    simp [bcm2708_dma_prep_dma_cyclic, grabConfig, hw]

/-- C3 witness: a 2-byte endpoint width with a valid direction is
rejected with no allocation. -/
theorem prep_invalid_config_fails_no_alloc_witness :
    (bcm2708_dma_prep_dma_cyclic
      { direction := Dir.devToMem, src_addr := 0x7E203004, src_addr_width := 2,
        dst_addr := 0x7E203004, dst_addr_width := 2, slave_id := 2 }
      0x1000 4096 1024 Dir.devToMem 0x200 true true).result = none
    ∧ (bcm2708_dma_prep_dma_cyclic
      { direction := Dir.devToMem, src_addr := 0x7E203004, src_addr_width := 2,
        dst_addr := 0x7E203004, dst_addr_width := 2, slave_id := 2 }
      0x1000 4096 1024 Dir.devToMem 0x200 true true).events = [] :=
  prep_invalid_config_fails_no_alloc _ _ _ _ _ _ _ _
    (Or.inr (Or.inl ⟨rfl, by decide⟩))

/-- C4: when the coherent allocation of the control blocks fails, the
builder fails (returns none) and releases the partial allocation: the
events are exactly the descriptor allocation followed by its free, so
the numbers of allocator and release calls balance and no partial
descriptor is left behind. -/
theorem prep_coherent_alloc_failure_no_leak (cfg : DmaSlaveConfig)
    (buf_addr buf_len period_len base_phys : Nat) (direction : Dir)
    (hvalid : (direction = Dir.devToMem ∧ cfg.src_addr_width = DMA_SLAVE_BUSWIDTH_4_BYTES)
      ∨ (direction = Dir.memToDev ∧ cfg.dst_addr_width = DMA_SLAVE_BUSWIDTH_4_BYTES)) :
    (bcm2708_dma_prep_dma_cyclic cfg buf_addr buf_len period_len direction base_phys
      true false).result = none
    ∧ (bcm2708_dma_prep_dma_cyclic cfg buf_addr buf_len period_len direction base_phys
      true false).events = [Event.kzallocDesc, Event.kfreeDesc]
    ∧ allocCount (bcm2708_dma_prep_dma_cyclic cfg buf_addr buf_len period_len direction base_phys
      true false).events
      = freeCount (bcm2708_dma_prep_dma_cyclic cfg buf_addr buf_len period_len direction base_phys
      true false).events := by
  have he : (bcm2708_dma_prep_dma_cyclic cfg buf_addr buf_len period_len direction base_phys
      true false).events = [Event.kzallocDesc, Event.kfreeDesc] := by
    rcases hvalid with ⟨h, hw⟩ | ⟨h, hw⟩ <;> subst h <;>
      simp [bcm2708_dma_prep_dma_cyclic, grabConfig, hw]
  have hr : (bcm2708_dma_prep_dma_cyclic cfg buf_addr buf_len period_len direction base_phys
      true false).result = none := by
    rcases hvalid with ⟨h, hw⟩ | ⟨h, hw⟩ <;> subst h <;>
      simp [bcm2708_dma_prep_dma_cyclic, grabConfig, hw]
  refine ⟨hr, he, ?_⟩
  rw [he]
  decide

/-- C4 witness: the coherent-allocation failure path at a concrete valid
configuration. -/
theorem prep_coherent_alloc_failure_no_leak_witness :
    (bcm2708_dma_prep_dma_cyclic cfgW 0x1000 4096 1024 Dir.devToMem 0x200
      true false).result = none
    ∧ (bcm2708_dma_prep_dma_cyclic cfgW 0x1000 4096 1024 Dir.devToMem 0x200
      true false).events = [Event.kzallocDesc, Event.kfreeDesc]
    ∧ allocCount (bcm2708_dma_prep_dma_cyclic cfgW 0x1000 4096 1024 Dir.devToMem 0x200
      true false).events
      = freeCount (bcm2708_dma_prep_dma_cyclic cfgW 0x1000 4096 1024 Dir.devToMem 0x200
      true false).events :=
  prep_coherent_alloc_failure_no_leak _ _ _ _ _ _ (Or.inl ⟨rfl, rfl⟩)

/-- C10 counterexample: at a valid-width, valid-direction input with
buffer length 512 below period length 1024, the builder is perfectly
well-defined — the per-frame loop runs zero times, so the claimed
modulo-by-zero next-step computation is never evaluated, and the builder
returns an empty zero-step descriptor rather than being undefined. -/
theorem prep_zero_frames_cex :
    (bcm2708_dma_prep_dma_cyclic cfgW 0x1000 512 1024 Dir.devToMem 0x200 true true).result
    = some { dir := Dir.devToMem, control_block_size := 0, control_block_base_phys := 0x200,
             frames := 0, size := 0, cbs := [] } := by
  decide

/-- C10 (amended): for every valid-width, valid-direction input with
buffer length below period length (and both allocations succeeding), the
builder computes frames = 0 and its loop executes zero times, so no
next-pointer arithmetic (and in particular no modulo by zero) is
performed: it returns an empty descriptor with zero frames, no control
blocks and zero size. -/
theorem prep_zero_frames_empty_descriptor (cfg : DmaSlaveConfig)
    (buf_addr buf_len period_len base_phys : Nat) (direction : Dir)
    (hvalid : (direction = Dir.devToMem ∧ cfg.src_addr_width = DMA_SLAVE_BUSWIDTH_4_BYTES)
      ∨ (direction = Dir.memToDev ∧ cfg.dst_addr_width = DMA_SLAVE_BUSWIDTH_4_BYTES))
    (hlt : buf_len < period_len) :
    ∃ d : Desc,
      (bcm2708_dma_prep_dma_cyclic cfg buf_addr buf_len period_len direction base_phys
        true true).result = some d
      ∧ d.frames = 0 ∧ d.cbs = [] ∧ d.size = 0 := by
  have h0 : buf_len / period_len = 0 := Nat.div_eq_of_lt hlt
  rcases hvalid with ⟨h, hw⟩ | ⟨h, hw⟩ <;> subst h
  · rw [prep_devToMem_eq _ _ _ _ _ hw]
    exact ⟨_, rfl, h0, by simp [h0], by simp [h0]⟩
  · rw [prep_memToDev_eq _ _ _ _ _ hw]
    exact ⟨_, rfl, h0, by simp [h0], by simp [h0]⟩

/-- C10 witness: the amended statement at the concrete 512-byte buffer
with a 1024-byte period. -/
theorem prep_zero_frames_empty_descriptor_witness :
    ∃ d : Desc,
      (bcm2708_dma_prep_dma_cyclic cfgW 0x2000 512 1024 Dir.memToDev 0x300
        true true).result = some d
      ∧ d.frames = 0 ∧ d.cbs = [] ∧ d.size = 0 :=
  prep_zero_frames_empty_descriptor _ _ _ _ _ _ (Or.inr ⟨rfl, rfl⟩) (by decide)

/-- C5: issue_pending on a channel with no active descriptor and a
non-empty queue pops the head descriptor into the active slot and starts
the hardware exactly once, with the physical address of that
descriptor's first control block; issue_pending while a descriptor is
active changes nothing and starts nothing. -/
theorem issue_pending_starts_head_or_noop :
    (∀ (s : ChanState) (d : Desc) (rest : List Desc),
      s.desc = none → s.pending = d :: rest →
      bcm2708_dma_issue_pending s
        = ({ desc := some d, pending := rest }, [Event.hwStart d.control_block_base_phys]))
    ∧ (∀ (s : ChanState) (d0 : Desc), s.desc = some d0 →
      bcm2708_dma_issue_pending s = (s, [])) := by
  constructor
  · intro s d rest hdesc hpend
    cases s with
    | mk desc pending =>
      simp only at hdesc hpend
      subst hdesc
      subst hpend
      simp [bcm2708_dma_issue_pending, vchan_issue_pending, bcm2708_dma_start_desc,
        vchan_next_desc]
  · intro s d0 hdesc
    simp [bcm2708_dma_issue_pending, hdesc]

/-- C5 witness: one queued descriptor is started exactly once, and a
second issue_pending with the descriptor active is a no-op. -/
theorem issue_pending_starts_head_or_noop_witness :
    bcm2708_dma_issue_pending { desc := none, pending := [dW] }
      = ({ desc := some dW, pending := [] }, [Event.hwStart dW.control_block_base_phys])
    ∧ bcm2708_dma_issue_pending { desc := some dW, pending := [] }
      = ({ desc := some dW, pending := [] }, []) :=
  ⟨issue_pending_starts_head_or_noop.1 _ dW [] rfl rfl,
   issue_pending_starts_head_or_noop.2 _ dW rfl⟩

/-- C6 counterexample: invoked on a channel with no active descriptor,
the interrupt callback does not perform only the acknowledge write: its
hardware writes are the acknowledge followed by the unconditional
run-bit re-assertion, so the event list differs from the
acknowledge-only list the claim demands. -/
theorem callback_no_active_extra_write_cex :
    (bcm2708_dma_callback { desc := none, pending := [] }).2
      ≠ [Event.writeReg BCM2708_DMA_CS BCM2708_DMA_INT] := by
  decide

/-- C6 (amended): invoked on a channel with no active descriptor, the
callback leaves the software state unchanged and performs exactly two
hardware writes — the interrupt acknowledge and the unconditional run-bit
re-assertion — and in particular does not invoke the period-boundary
notification. -/
theorem callback_no_active_ack_and_rearm_only (s : ChanState) (h : s.desc = none) :
    bcm2708_dma_callback s
      = (s, [Event.writeReg BCM2708_DMA_CS BCM2708_DMA_INT,
             Event.writeReg BCM2708_DMA_CS BCM2708_DMA_ACTIVE]) := by
  simp [bcm2708_dma_callback, h]

/-- C6 witness: the amended statement at the concrete empty channel. -/
theorem callback_no_active_ack_and_rearm_only_witness :
    bcm2708_dma_callback { desc := none, pending := [] }
      = ({ desc := none, pending := [] },
         [Event.writeReg BCM2708_DMA_CS BCM2708_DMA_INT,
          Event.writeReg BCM2708_DMA_CS BCM2708_DMA_ACTIVE]) :=
  callback_no_active_ack_and_rearm_only _ rfl

/-! ### Projections of one built control block -/

/-- Destination of a device-to-memory block advances with the frame. -/
theorem mk_devToMem_dst (dev_addr buf_addr period_len slave_id sync_type base_phys n i : Nat) :
    (mkControlBlock Dir.devToMem dev_addr buf_addr period_len slave_id sync_type base_phys n i).dst
    = buf_addr + i * period_len := rfl

/-- Source of a device-to-memory block is the fixed endpoint address. -/
theorem mk_devToMem_src (dev_addr buf_addr period_len slave_id sync_type base_phys n i : Nat) :
    (mkControlBlock Dir.devToMem dev_addr buf_addr period_len slave_id sync_type base_phys n i).src
    = dev_addr := rfl

/-- Source of a memory-to-device block advances with the frame. -/
theorem mk_memToDev_src (dev_addr buf_addr period_len slave_id sync_type base_phys n i : Nat) :
    (mkControlBlock Dir.memToDev dev_addr buf_addr period_len slave_id sync_type base_phys n i).src
    = buf_addr + i * period_len := rfl

/-- Destination of a memory-to-device block is the fixed endpoint
address. -/
theorem mk_memToDev_dst (dev_addr buf_addr period_len slave_id sync_type base_phys n i : Nat) :
    (mkControlBlock Dir.memToDev dev_addr buf_addr period_len slave_id sync_type base_phys n i).dst
    = dev_addr := rfl

/-- Length of every built block is the period length. -/
theorem mk_length (dir : Dir) (dev_addr buf_addr period_len slave_id sync_type base_phys n i : Nat) :
    (mkControlBlock dir dev_addr buf_addr period_len slave_id sync_type base_phys n i).length
    = period_len := by
  cases dir <;> rfl

/-- Flag word of a built block, with a non-zero synchronisation type. -/
theorem mk_info_eq (dir : Dir) (dev_addr buf_addr period_len slave_id sync_type base_phys n i : Nat)
    (hsync : sync_type ≠ 0) :
    (mkControlBlock dir dev_addr buf_addr period_len slave_id sync_type base_phys n i).info
    = (if slave_id ≠ 0
       then ((if dir = Dir.devToMem then BCM2708_DMA_D_INC else BCM2708_DMA_S_INC)
              ||| BCM2708_DMA_INT_EN ||| sync_type) ||| BCM2708_DMA_PER_MAP slave_id
       else (if dir = Dir.devToMem then BCM2708_DMA_D_INC else BCM2708_DMA_S_INC)
              ||| BCM2708_DMA_INT_EN ||| sync_type) := by
  simp [mkControlBlock, hsync]

/-- A positive frame count forces a positive period length (the integer
quotient by zero is zero). -/
theorem period_pos_of_frames_pos (buf_len period_len : Nat)
    (hfr : 1 ≤ buf_len / period_len) : 0 < period_len := by
  rcases Nat.eq_zero_or_pos period_len with h0 | h
  · subst h0
    simp at hfr
  · exact h

/-- C1: for every valid configuration where the period length divides
the buffer length exactly into at least one frame, the built descriptor
has exactly frames = buffer_length / period_length control blocks, every
block's next pointer is the physical address of block (i+1) mod frames,
the last block's next pointer is the physical address of the first block
(the chain base), every block's length is the period length, and the sum
of the block lengths is the buffer length. -/
theorem prep_cyclic_circular_exact_cover (cfg : DmaSlaveConfig)
    (buf_addr buf_len period_len base_phys : Nat) (direction : Dir)
    (hvalid : (direction = Dir.devToMem ∧ cfg.src_addr_width = DMA_SLAVE_BUSWIDTH_4_BYTES)
      ∨ (direction = Dir.memToDev ∧ cfg.dst_addr_width = DMA_SLAVE_BUSWIDTH_4_BYTES))
    (hdvd : period_len ∣ buf_len) (hfr : 1 ≤ buf_len / period_len) :
    ∃ d : Desc,
      (bcm2708_dma_prep_dma_cyclic cfg buf_addr buf_len period_len direction base_phys
        true true).result = some d
      ∧ d.frames = buf_len / period_len
      ∧ d.cbs.length = d.frames
      ∧ (∀ i (hi : i < d.cbs.length),
          (d.cbs.get ⟨i, hi⟩).next
            = base_phys + sizeof_bcm2708_dma_cb * ((i + 1) % d.frames))
      ∧ (∀ hl : d.frames - 1 < d.cbs.length,
          (d.cbs.get ⟨d.frames - 1, hl⟩).next = base_phys)
      ∧ (∀ cb ∈ d.cbs, cb.length = period_len)
      ∧ (d.cbs.map fun cb => cb.length).sum = buf_len := by
  rcases hvalid with ⟨h, hw⟩ | ⟨h, hw⟩ <;> subst h
  · rw [prep_devToMem_eq _ _ _ _ _ hw]
    refine ⟨_, rfl, rfl, by simp, ?_, ?_, ?_, ?_⟩
    · intro i hi
      rw [get_range_map]
      rfl
    · intro hl
      rw [get_range_map]
      show base_phys + sizeof_bcm2708_dma_cb
        * ((buf_len / period_len - 1 + 1) % (buf_len / period_len)) = base_phys
      rw [Nat.sub_add_cancel hfr, Nat.mod_self]
      simp
    · intro cb hcb
      rcases List.mem_map.1 hcb with ⟨i, _, rfl⟩
      rfl
    · rw [sum_lengths_range_map _ _ period_len fun i => rfl]
      exact Nat.div_mul_cancel hdvd
  · rw [prep_memToDev_eq _ _ _ _ _ hw]
    refine ⟨_, rfl, rfl, by simp, ?_, ?_, ?_, ?_⟩
    · intro i hi
      rw [get_range_map]
      rfl
    · intro hl
      rw [get_range_map]
      show base_phys + sizeof_bcm2708_dma_cb
        * ((buf_len / period_len - 1 + 1) % (buf_len / period_len)) = base_phys
      rw [Nat.sub_add_cancel hfr, Nat.mod_self]
      simp
    · intro cb hcb
      rcases List.mem_map.1 hcb with ⟨i, _, rfl⟩
      rfl
    · rw [sum_lengths_range_map _ _ period_len fun i => rfl]
      exact Nat.div_mul_cancel hdvd

/-- C1 witness: the spec scenario buffer_length = 4096, period_length =
1024 gives four 1024-byte frames closed into a circle. -/
theorem prep_cyclic_circular_exact_cover_witness :
    ∃ d : Desc,
      (bcm2708_dma_prep_dma_cyclic cfgW 0x1000 4096 1024 Dir.devToMem 0x200
        true true).result = some d
      ∧ d.frames = 4096 / 1024
      ∧ d.cbs.length = d.frames
      ∧ (∀ i (hi : i < d.cbs.length),
          (d.cbs.get ⟨i, hi⟩).next
            = 0x200 + sizeof_bcm2708_dma_cb * ((i + 1) % d.frames))
      ∧ (∀ hl : d.frames - 1 < d.cbs.length,
          (d.cbs.get ⟨d.frames - 1, hl⟩).next = 0x200)
      ∧ (∀ cb ∈ d.cbs, cb.length = 1024)
      ∧ (d.cbs.map fun cb => cb.length).sum = 4096 :=
  prep_cyclic_circular_exact_cover cfgW 0x1000 4096 1024 0x200 Dir.devToMem
    (Or.inl ⟨rfl, rfl⟩) (by decide) (by decide)

/-- C2: in a device-to-memory descriptor every block's destination is
buffer_address + i * period_length (strictly increasing and
non-overlapping across blocks), every block's source is the configured
endpoint address, and every block's flag word has the
destination-increment bit (bit 4) and the interrupt-enable bit (bit 0)
set; symmetrically, in a memory-to-device descriptor the source
advances, the destination is fixed at the endpoint, and the
source-increment bit (bit 8) and the interrupt-enable bit are set. -/
theorem prep_cyclic_addresses_and_flags (cfg : DmaSlaveConfig)
    (buf_addr buf_len period_len base_phys : Nat)
    (hfr : 1 ≤ buf_len / period_len) :
    (cfg.src_addr_width = DMA_SLAVE_BUSWIDTH_4_BYTES →
      ∃ d : Desc,
        (bcm2708_dma_prep_dma_cyclic cfg buf_addr buf_len period_len Dir.devToMem base_phys
          true true).result = some d
        ∧ (∀ i (hi : i < d.cbs.length),
            (d.cbs.get ⟨i, hi⟩).dst = buf_addr + i * period_len
            ∧ (d.cbs.get ⟨i, hi⟩).src = cfg.src_addr
            ∧ (d.cbs.get ⟨i, hi⟩).info.testBit 4 = true
            ∧ (d.cbs.get ⟨i, hi⟩).info.testBit 0 = true)
        ∧ (∀ i j (hi : i < d.cbs.length) (hj : j < d.cbs.length), i < j →
            (d.cbs.get ⟨i, hi⟩).dst < (d.cbs.get ⟨j, hj⟩).dst
            ∧ (d.cbs.get ⟨i, hi⟩).dst + (d.cbs.get ⟨i, hi⟩).length
              ≤ (d.cbs.get ⟨j, hj⟩).dst))
    ∧ (cfg.dst_addr_width = DMA_SLAVE_BUSWIDTH_4_BYTES →
      ∃ d : Desc,
        (bcm2708_dma_prep_dma_cyclic cfg buf_addr buf_len period_len Dir.memToDev base_phys
          true true).result = some d
        ∧ (∀ i (hi : i < d.cbs.length),
            (d.cbs.get ⟨i, hi⟩).src = buf_addr + i * period_len
            ∧ (d.cbs.get ⟨i, hi⟩).dst = cfg.dst_addr
            ∧ (d.cbs.get ⟨i, hi⟩).info.testBit 8 = true
            ∧ (d.cbs.get ⟨i, hi⟩).info.testBit 0 = true)
        ∧ (∀ i j (hi : i < d.cbs.length) (hj : j < d.cbs.length), i < j →
            (d.cbs.get ⟨i, hi⟩).src < (d.cbs.get ⟨j, hj⟩).src
            ∧ (d.cbs.get ⟨i, hi⟩).src + (d.cbs.get ⟨i, hi⟩).length
              ≤ (d.cbs.get ⟨j, hj⟩).src)) := by
  have hp : 0 < period_len := period_pos_of_frames_pos buf_len period_len hfr
  constructor
  · intro hw
    rw [prep_devToMem_eq _ _ _ _ _ hw]
    refine ⟨_, rfl, ?_, ?_⟩
    · intro i hi
      rw [get_range_map]
      refine ⟨rfl, rfl, ?_, ?_⟩
      · rw [mk_info_eq _ _ _ _ _ _ _ _ _ (by decide)]
        exact info_testBit_low _ _ _ (by decide) (by decide)
      · rw [mk_info_eq _ _ _ _ _ _ _ _ _ (by decide)]
        exact info_testBit_low _ _ _ (by decide) (by decide)
    · intro i j hi hj hij
      simp only [get_range_map, mk_devToMem_dst, mk_length]
      have hstep : i * period_len + period_len ≤ j * period_len := by
        have h2 := Nat.mul_le_mul_right period_len (show i + 1 ≤ j from hij)
        simpa [Nat.succ_mul] using h2
      constructor
      · have h3 : i * period_len < j * period_len :=
          Nat.lt_of_lt_of_le (Nat.lt_add_of_pos_right hp) hstep
        exact Nat.add_lt_add_left h3 buf_addr
      · rw [Nat.add_assoc]
        exact Nat.add_le_add_left hstep _
  · intro hw
    rw [prep_memToDev_eq _ _ _ _ _ hw]
    refine ⟨_, rfl, ?_, ?_⟩
    · intro i hi
      rw [get_range_map]
      refine ⟨rfl, rfl, ?_, ?_⟩
      · rw [mk_info_eq _ _ _ _ _ _ _ _ _ (by decide)]
        exact info_testBit_low _ _ _ (by decide) (by decide)
      · rw [mk_info_eq _ _ _ _ _ _ _ _ _ (by decide)]
        exact info_testBit_low _ _ _ (by decide) (by decide)
    · intro i j hi hj hij
      simp only [get_range_map, mk_memToDev_src, mk_length]
      have hstep : i * period_len + period_len ≤ j * period_len := by
        have h2 := Nat.mul_le_mul_right period_len (show i + 1 ≤ j from hij)
        simpa [Nat.succ_mul] using h2
      constructor
      · have h3 : i * period_len < j * period_len :=
          Nat.lt_of_lt_of_le (Nat.lt_add_of_pos_right hp) hstep
        exact Nat.add_lt_add_left h3 buf_addr
      · rw [Nat.add_assoc]
        exact Nat.add_le_add_left hstep _

/-- C2 witness: both directions at the concrete 4096/1024 scenario. -/
theorem prep_cyclic_addresses_and_flags_witness :
    (∃ d : Desc,
      (bcm2708_dma_prep_dma_cyclic cfgW 0x1000 4096 1024 Dir.devToMem 0x200
        true true).result = some d
      ∧ (∀ i (hi : i < d.cbs.length),
          (d.cbs.get ⟨i, hi⟩).dst = 0x1000 + i * 1024
          ∧ (d.cbs.get ⟨i, hi⟩).src = cfgW.src_addr
          ∧ (d.cbs.get ⟨i, hi⟩).info.testBit 4 = true
          ∧ (d.cbs.get ⟨i, hi⟩).info.testBit 0 = true)
      ∧ (∀ i j (hi : i < d.cbs.length) (hj : j < d.cbs.length), i < j →
          (d.cbs.get ⟨i, hi⟩).dst < (d.cbs.get ⟨j, hj⟩).dst
          ∧ (d.cbs.get ⟨i, hi⟩).dst + (d.cbs.get ⟨i, hi⟩).length
            ≤ (d.cbs.get ⟨j, hj⟩).dst))
    ∧ (∃ d : Desc,
      (bcm2708_dma_prep_dma_cyclic cfgW 0x1000 4096 1024 Dir.memToDev 0x200
        true true).result = some d
      ∧ (∀ i (hi : i < d.cbs.length),
          (d.cbs.get ⟨i, hi⟩).src = 0x1000 + i * 1024
          ∧ (d.cbs.get ⟨i, hi⟩).dst = cfgW.dst_addr
          ∧ (d.cbs.get ⟨i, hi⟩).info.testBit 8 = true
          ∧ (d.cbs.get ⟨i, hi⟩).info.testBit 0 = true)
      ∧ (∀ i j (hi : i < d.cbs.length) (hj : j < d.cbs.length), i < j →
          (d.cbs.get ⟨i, hi⟩).src < (d.cbs.get ⟨j, hj⟩).src
          ∧ (d.cbs.get ⟨i, hi⟩).src + (d.cbs.get ⟨i, hi⟩).length
            ≤ (d.cbs.get ⟨j, hj⟩).src)) :=
  ⟨(prep_cyclic_addresses_and_flags cfgW 0x1000 4096 1024 0x200 (by decide)).1 rfl,
   (prep_cyclic_addresses_and_flags cfgW 0x1000 4096 1024 0x200 (by decide)).2 rfl⟩

/-! ### The residue walk -/

/-- Once the accumulator of the residue walk is non-zero, every
remaining block contributes its full length. -/
theorem sizePosLoop_pos (dir : Dir) (addr : Nat) (l : List DmaCB) (s : Nat) (hs : s ≠ 0) :
    sizePosLoop dir addr l s = s + (l.map fun cb => cb.length).sum := by
  induction l generalizing s with
  | nil => simp [sizePosLoop]
  | cons cb rest ih =>
    have hs2 : s + cb.length ≠ 0 := fun h => hs (by omega)
    simp only [sizePosLoop]
    rw [if_pos hs, ih _ hs2]
    simp [Nat.add_assoc]

/-- If no block's range contains the position, the residue walk yields
zero. -/
theorem sizePosLoop_unmatched (dir : Dir) (addr : Nat) (l : List DmaCB)
    (h : ∀ cb ∈ l, ¬ inStep dir addr cb) :
    sizePosLoop dir addr l 0 = 0 := by
  induction l with
  | nil => rfl
  | cons cb rest ih =>
    have hcb : ¬ (stepPos dir cb ≤ addr ∧ addr < stepPos dir cb + cb.length) :=
      h cb (List.mem_cons_self cb rest)
    simp only [sizePosLoop]
    rw [if_neg (by simp), if_neg hcb]
    exact ih fun cb2 h2 => h cb2 (List.mem_cons_of_mem _ h2)

/-- If the position lies in block i's range and in no earlier block's
range, the walk returns block i's remainder plus the lengths of all
later blocks. -/
theorem sizePosLoop_first_match (dir : Dir) (addr : Nat) (l : List DmaCB) (i : Nat)
    (hi : i < l.length)
    (hbefore : ∀ cb ∈ l.take i, ¬ inStep dir addr cb)
    (hmatch : inStep dir addr (l.get ⟨i, hi⟩)) :
    sizePosLoop dir addr l 0
      = (stepPos dir (l.get ⟨i, hi⟩) + (l.get ⟨i, hi⟩).length - addr)
        + ((l.drop (i + 1)).map fun cb => cb.length).sum := by
  induction l generalizing i with
  | nil => exact absurd hi (Nat.not_lt_zero i)
  | cons cb rest ih =>
    cases i with
    | zero =>
      obtain ⟨h1, h2⟩ : stepPos dir cb ≤ addr ∧ addr < stepPos dir cb + cb.length := hmatch
      simp only [sizePosLoop]
      rw [if_neg (by simp), if_pos ⟨h1, h2⟩]
      have hne : 0 + (stepPos dir cb + cb.length - addr) ≠ 0 := by omega
      rw [sizePosLoop_pos dir addr rest _ hne]
      simp
    | succ i' =>
      have hcb : ¬ (stepPos dir cb ≤ addr ∧ addr < stepPos dir cb + cb.length) :=
        hbefore cb (by simp)
      have hi' : i' < rest.length := Nat.lt_of_succ_lt_succ hi
      have hbefore' : ∀ cb2 ∈ rest.take i', ¬ inStep dir addr cb2 := by
        intro cb2 h2
        exact hbefore cb2 (by simp [h2])
      have hmatch' : inStep dir addr (rest.get ⟨i', hi'⟩) := by
        simpa using hmatch
      simp only [sizePosLoop]
      rw [if_neg (by simp), if_neg hcb]
      rw [ih i' hi' hbefore' hmatch']
      simp

/-- C7: the residue walk over the active descriptor's blocks: if the
hardware position lies in block i's advancing-side address range and in
no earlier block's range, the result is that block's remainder
(block address + block length - position) plus the sum of the lengths of
all blocks after i; if the position lies in no block's range, the result
is 0.  The address compared is the block destination for
device-to-memory descriptors and the block source for memory-to-device
descriptors. -/
theorem desc_size_pos_characterization (d : Desc) (addr : Nat) :
    (∀ i (hi : i < (d.cbs.take d.frames).length),
      (∀ cb ∈ (d.cbs.take d.frames).take i, ¬ inStep d.dir addr cb) →
      inStep d.dir addr ((d.cbs.take d.frames).get ⟨i, hi⟩) →
      bcm2708_dma_desc_size_pos d addr
        = (stepPos d.dir ((d.cbs.take d.frames).get ⟨i, hi⟩)
            + ((d.cbs.take d.frames).get ⟨i, hi⟩).length - addr)
          + (((d.cbs.take d.frames).drop (i + 1)).map fun cb => cb.length).sum)
    ∧ ((∀ cb ∈ d.cbs.take d.frames, ¬ inStep d.dir addr cb) →
      bcm2708_dma_desc_size_pos d addr = 0)
    ∧ (∀ cb : DmaCB, stepPos Dir.devToMem cb = cb.dst)
    ∧ (∀ cb : DmaCB, stepPos Dir.memToDev cb = cb.src) := by
  refine ⟨?_, ?_, fun cb => rfl, fun cb => rfl⟩
  · intro i hi hbefore hmatch
    exact sizePosLoop_first_match d.dir addr _ i hi hbefore hmatch
  · intro h
    exact sizePosLoop_unmatched d.dir addr _ h

/-- A concrete four-frame device-to-memory descriptor (1024-byte
periods over the buffer at 0x1000) used by the residue witness. -/
def d7 : Desc :=
  { dir := Dir.devToMem
    control_block_size := 128
    control_block_base_phys := 0x200
    frames := 4
    size := 4096
    cbs :=
      [{ info := 1041, src := 0x7E203004, dst := 0x1000, length := 1024, next := 0x220 },
       { info := 1041, src := 0x7E203004, dst := 0x1400, length := 1024, next := 0x240 },
       { info := 1041, src := 0x7E203004, dst := 0x1800, length := 1024, next := 0x260 },
       { info := 1041, src := 0x7E203004, dst := 0x1C00, length := 1024, next := 0x200 }] }

/-- C7 witness: a position inside the second block gives that block's
remainder (768 bytes) plus the two later blocks (2048 bytes); a position
outside every block gives 0. -/
theorem desc_size_pos_characterization_witness :
    bcm2708_dma_desc_size_pos d7 0x1500 = 768 + 2048
    ∧ bcm2708_dma_desc_size_pos d7 0x9999 = 0 := by
  constructor
  · have h := (desc_size_pos_characterization d7 0x1500).1 1 (by decide) (by decide) (by decide)
    rw [h]
    decide
  · exact (desc_size_pos_characterization d7 0x9999).2.1 (by decide)

/-! ### Termination -/

/-- One iteration of the quiesce wait with a hardware that reports the
run bit already clear. -/
theorem waitForStop_immediate (t k : Nat) :
    waitForStop (fun _ => 0) (Nat.succ t) k = (t, [Event.readCSReg 0]) := by
  simp [waitForStop]

/-- If every read of the control-and-status register shows the run bit
still set, the quiesce wait exhausts its whole countdown. -/
theorem waitForStop_busy_fst (readCS : Nat → Nat)
    (hbusy : ∀ k, readCS k &&& BCM2708_DMA_ACTIVE ≠ 0) (t k : Nat) :
    (waitForStop readCS t k).1 = 0 := by
  induction t generalizing k with
  | zero => rfl
  | succ n ih =>
    simp only [waitForStop]
    rw [if_neg (hbusy k)]
    exact ih (k + 1)

/-- The quiesce wait reads the control-and-status register at most as
often as its countdown allows. -/
theorem pollCount_waitForStop_le (readCS : Nat → Nat) (t k : Nat) :
    pollCount (waitForStop readCS t k).2 ≤ t := by
  induction t generalizing k with
  | zero => simp [waitForStop, pollCount]
  | succ n ih =>
    simp only [waitForStop]
    split
    · simp [pollCount]
    · have h := ih (k + 1)
      simp only [pollCount] at h ⊢
      simp [List.countP_cons]
      omega

/-- Poll reads distribute over event-list concatenation. -/
theorem pollCount_append (a b : List Event) :
    pollCount (a ++ b) = pollCount a + pollCount b := by
  simp [pollCount, List.countP_append]

/-- Freeing descriptors performs no poll read. -/
theorem pollCount_free_list (ds : List Desc) :
    pollCount (vchan_dma_desc_free_list ds) = 0 := by
  induction ds with
  | nil => rfl
  | cons d rest ih =>
    simp only [vchan_dma_desc_free_list, List.map_cons, pollCount, List.countP_cons] at ih ⊢
    simp

/-- C8 (code bug): terminating a channel whose descriptor is active and
whose queue is empty returns success, clears the active slot before the
hardware abort and forces the software state to idle, but frees nothing:
the started descriptor was removed from every queue when it became
active, so the drain collects nothing and no free event for it is ever
emitted — its descriptor and control-block memory leak, although the
specification requires it to be freed.  An immediate second terminate
finds nothing active and nothing queued and is a success no-op. -/
theorem terminate_active_descriptor_leaked :
    (bcm2708_dma_terminate_all (fun _ => 0) { desc := some dW, pending := [] }).ret = 0
    ∧ (bcm2708_dma_terminate_all (fun _ => 0) { desc := some dW, pending := [] }).state
        = { desc := none, pending := [] }
    ∧ (bcm2708_dma_terminate_all (fun _ => 0) { desc := some dW, pending := [] }).events
        = [Event.clearActive, Event.hwAbort, Event.readCSReg 0]
    ∧ Event.descFree dW ∉
        (bcm2708_dma_terminate_all (fun _ => 0) { desc := some dW, pending := [] }).events
    ∧ (bcm2708_dma_terminate_all (fun _ => 0) { desc := none, pending := [] }).ret = 0
    ∧ (bcm2708_dma_terminate_all (fun _ => 0) { desc := none, pending := [] }).events = [] := by
  have h1 : BCM2708_TERMINATE_TIMEOUT = Nat.succ 9999 := rfl
  have hw : waitForStop (fun _ => 0) BCM2708_TERMINATE_TIMEOUT 0 = (9999, [Event.readCSReg 0]) := by
    rw [h1, waitForStop_immediate]
  refine ⟨?_, ?_, ?_, ?_, ?_, ?_⟩ <;>
    simp [bcm2708_dma_terminate_all, vchan_get_all_descriptors, vchan_dma_desc_free_list, hw]

/-- C9: the hardware-quiesce wait of terminate is bounded: for every
read oracle and every channel state it reads the control-and-status
register at most the fixed cap of 10000 times; and whenever the run bit
never clears within the bound, terminate still returns success, forces
the software state to idle (no active descriptor, empty queue), and — if
a descriptor was active, so the wait actually ran — logs the
termination-timeout warning. -/
theorem terminate_bounded_poll_and_timeout :
    (∀ (readCS : Nat → Nat) (s : ChanState),
      pollCount (bcm2708_dma_terminate_all readCS s).events ≤ BCM2708_TERMINATE_TIMEOUT)
    ∧ (∀ (readCS : Nat → Nat) (s : ChanState),
      (∀ k, readCS k &&& BCM2708_DMA_ACTIVE ≠ 0) →
      (bcm2708_dma_terminate_all readCS s).ret = 0
      ∧ (bcm2708_dma_terminate_all readCS s).state = { desc := none, pending := [] }
      ∧ (s.desc.isSome = true →
          Event.logTimeout ∈ (bcm2708_dma_terminate_all readCS s).events)) := by
  constructor
  · intro readCS s
    obtain ⟨sd, sp⟩ := s
    cases sd with
    | none =>
      simp [bcm2708_dma_terminate_all, vchan_get_all_descriptors, pollCount_free_list]
    | some d =>
      have hle := pollCount_waitForStop_le readCS BCM2708_TERMINATE_TIMEOUT 0
      simp only [bcm2708_dma_terminate_all, vchan_get_all_descriptors]
      rw [pollCount_append, pollCount_append, pollCount_append, pollCount_free_list]
      have hlog : pollCount (if (waitForStop readCS BCM2708_TERMINATE_TIMEOUT 0).1 = 0
          then [Event.logTimeout] else []) = 0 := by
        split <;> rfl
      rw [hlog]
      have h2 : pollCount [Event.clearActive, Event.hwAbort] = 0 := rfl
      rw [h2]
      omega
  · intro readCS s hbusy
    obtain ⟨sd, sp⟩ := s
    cases sd with
    | none =>
      refine ⟨?_, ?_, ?_⟩ <;>
        simp [bcm2708_dma_terminate_all, vchan_get_all_descriptors, vchan_dma_desc_free_list]
    | some d =>
      have hw0 : (waitForStop readCS BCM2708_TERMINATE_TIMEOUT 0).1 = 0 :=
        waitForStop_busy_fst readCS hbusy _ _
      refine ⟨?_, ?_, ?_⟩
      · simp [bcm2708_dma_terminate_all]
      · simp [bcm2708_dma_terminate_all, vchan_get_all_descriptors]
      · intro _
        simp [bcm2708_dma_terminate_all, vchan_get_all_descriptors,
          vchan_dma_desc_free_list, hw0]

/-- C9 witness: a hardware whose run bit never clears — terminate still
returns success, goes idle, and logs the timeout. -/
theorem terminate_bounded_poll_and_timeout_witness :
    (bcm2708_dma_terminate_all (fun _ => 1) { desc := some dW, pending := [] }).ret = 0
    ∧ (bcm2708_dma_terminate_all (fun _ => 1) { desc := some dW, pending := [] }).state
        = { desc := none, pending := [] }
    ∧ Event.logTimeout ∈
        (bcm2708_dma_terminate_all (fun _ => 1) { desc := some dW, pending := [] }).events := by
  have h := terminate_bounded_poll_and_timeout.2 (fun _ => 1)
    { desc := some dW, pending := [] }
    (fun _ => (by decide : (1 : Nat) &&& BCM2708_DMA_ACTIVE ≠ 0))
  exact ⟨h.1, h.2.1, h.2.2 rfl⟩

end BCM2708
